import Mathlib

/-!
Shallow embedding of the viral-genome snpEff annotation pipeline
(step1_parse_viral_genome.py, step1_vadr_annotate.py, step2_add_to_snpeff.py).

Python strings are modelled as `List Char`; pandas NaN cells as `Option`;
fallible operations (int(), list indexing) as `Option`; the third-party
Biopython operations reverse_complement and translate as function parameters.
-/

namespace ViralSnpeff

/-- Characters of a string literal, used to model Python strings as `List Char`. -/
def str (s : String) : List Char := s.data

/-- ASCII apostrophe, used to build GenBank feature-kind names. -/
def apos : Char := Char.ofNat 39

/-- Python regex `\s` whitespace class, ASCII subset. -/
def pySpace (c : Char) : Bool :=
  c = ' ' || c = Char.ofNat 9 || c = Char.ofNat 10 || c = Char.ofNat 13 ||
  c = Char.ofNat 11 || c = Char.ofNat 12

/-- Python regex `\w` word-character class, ASCII subset. -/
def wordChar (c : Char) : Bool := c.isAlphanum || c = '_'

/-- Python substring test `needle in hay`. -/
def isSubstring (needle : List Char) : List Char → Bool
  | [] => needle.isEmpty
  | c :: t => needle.isPrefixOf (c :: t) || isSubstring needle t

/-- Python `s.lower()` on ASCII text. -/
def toLowerList (l : List Char) : List Char := l.map Char.toLower

/-- Python `s.upper()` on ASCII text. -/
def toUpperList (l : List Char) : List Char := l.map Char.toUpper

/-- Decimal digit character, as produced by Python `str` on a digit value. -/
def digitChar (n : Nat) : Char := Char.ofNat (48 + n)

/-- Fuelled decimal rendering of a natural number. -/
def natDigitsAux : Nat → Nat → List Char
  | 0, _ => []
  | fuel + 1, n =>
    if n < 10 then [digitChar n] else natDigitsAux fuel (n / 10) ++ [digitChar (n % 10)]

/-- Decimal digit string of `n`, modelling Python `str(n)` for a nonnegative int. -/
def natDigits (n : Nat) : List Char := natDigitsAux (n + 1) n

/-- Numeric value of a decimal digit character. -/
def digitVal (c : Char) : Nat := c.toNat - 48

/-- Decimal value of a digit string. -/
def readNat (l : List Char) : Nat := l.foldl (fun a c => a * 10 + digitVal c) 0

/-- Python `int(s)` restricted to plain digit strings; `none` models `ValueError`. -/
def readNatOpt (l : List Char) : Option Nat :=
  if l ≠ [] ∧ l.all Char.isDigit then some (readNat l) else none

/-- The maximal digit suffix of a token (used to distinguish generated identifiers). -/
def digitSuffix (l : List Char) : List Char := (l.reverse.takeWhile Char.isDigit).reverse

/-- Python `s.split(sep)` for a one-character separator. -/
def splitOnChar (sep : Char) : List Char → List (List Char)
  | [] => [[]]
  | c :: t =>
    match splitOnChar sep t with
    | [] => [[]]
    | h :: r => if c = sep then [] :: h :: r else (c :: h) :: r

/-- Fuelled scan implementing Python `s.split(sep)` for a multi-character separator. -/
def splitOnSeqAux (sep : List Char) : Nat → List Char → List Char → List (List Char)
  | _, [], cur => [cur.reverse]
  | 0, l, cur => [cur.reverse ++ l]
  | fuel + 1, c :: t, cur =>
    if sep ≠ [] ∧ sep.isPrefixOf (c :: t) then
      cur.reverse :: splitOnSeqAux sep fuel ((c :: t).drop sep.length) []
    else
      splitOnSeqAux sep fuel t (c :: cur)

/-- Python `s.split(sep)` for a multi-character separator. -/
def splitOnSeq (sep l : List Char) : List (List Char) := splitOnSeqAux sep l.length l []

/-- Python `s.replace(old, '')`: drop every non-overlapping occurrence of `old`. -/
def removeAllSeq (sep l : List Char) : List Char :=
  (splitOnSeq sep l).foldr (fun a b => a ++ b) []

/-- Python `','.join(parts)`. -/
def joinComma : List (List Char) → List Char
  | [] => []
  | [x] => x
  | x :: y :: r => x ++ ',' :: joinComma (y :: r)

/-- Python list indexing `[1]`; `none` models `IndexError`. -/
def secondPart : List (List Char) → Option (List Char)
  | _ :: x :: _ => some x
  | _ => none

/- ### Arithmetic facts about the decimal rendering -/

theorem digitVal_digitChar {n : Nat} (h : n < 10) : digitVal (digitChar n) = n := by
  interval_cases n <;> decide

theorem isDigit_digitChar {n : Nat} (h : n < 10) : (digitChar n).isDigit = true := by
  interval_cases n <;> decide

theorem readNat_append_digit (l : List Char) (c : Char) :
    readNat (l ++ [c]) = readNat l * 10 + digitVal c := by
  simp [readNat, List.foldl_append]

theorem readNat_natDigitsAux : ∀ fuel n, n < fuel → readNat (natDigitsAux fuel n) = n := by
  intro fuel
  induction fuel with
  | zero => intro n h; omega
  | succ fuel ih =>
    intro n h
    by_cases h10 : n < 10
    · simp only [natDigitsAux, if_pos h10]
      show readNat [digitChar n] = n
      simp [readNat, digitVal_digitChar h10]
    · simp only [natDigitsAux, if_neg h10]
      rw [readNat_append_digit, ih (n / 10) (by omega), digitVal_digitChar (Nat.mod_lt n (by omega))]
      omega

theorem readNat_natDigits (n : Nat) : readNat (natDigits n) = n :=
  readNat_natDigitsAux (n + 1) n (Nat.lt_succ_self n)

theorem natDigits_inj {m n : Nat} (h : natDigits m = natDigits n) : m = n := by
  have hm := readNat_natDigits m
  rw [h, readNat_natDigits] at hm
  exact hm.symm

theorem natDigitsAux_digits :
    ∀ fuel n c, c ∈ natDigitsAux fuel n → c.isDigit = true := by
  intro fuel
  induction fuel with
  | zero => intro n c hc; simp [natDigitsAux] at hc
  | succ fuel ih =>
    intro n a hc
    by_cases h10 : n < 10
    · simp only [natDigitsAux, if_pos h10, List.mem_singleton] at hc
      rw [hc]; exact isDigit_digitChar h10
    · simp only [natDigitsAux, if_neg h10, List.mem_append, List.mem_singleton] at hc
      rcases hc with hc | hc
      · exact ih (n / 10) a hc
      · rw [hc]; exact isDigit_digitChar (Nat.mod_lt n (by omega))

theorem natDigits_digits (n : Nat) {c : Char} (hc : c ∈ natDigits n) : c.isDigit = true :=
  natDigitsAux_digits (n + 1) n c hc

theorem takeWhile_append_all {p : Char → Bool} :
    ∀ (u v : List Char), (∀ c ∈ u, p c = true) → (u ++ v).takeWhile p = u ++ v.takeWhile p := by
  intro u
  induction u with
  | nil => intro v _; simp
  | cons c t ih =>
    intro v h
    rw [List.cons_append, List.takeWhile_cons_of_pos (h c (List.mem_cons_self c t)),
      ih v (fun x hx => h x (List.mem_cons_of_mem c hx)), List.cons_append]

theorem digitSuffix_underscore (a d : List Char) (hd : ∀ c ∈ d, c.isDigit = true) :
    digitSuffix (a ++ '_' :: d) = d := by
  unfold digitSuffix
  rw [List.reverse_append, List.reverse_cons, List.append_assoc,
    takeWhile_append_all d.reverse _ (fun c hc => hd c (List.mem_reverse.mp hc)),
    List.singleton_append, List.takeWhile_cons_of_neg (by decide), List.append_nil,
    List.reverse_reverse]

/- ### step1_parse_viral_genome.py: frameshift position heuristics (lines 64-93) -/

/-- Case-insensitive literal match of `kw` (given lowercase) at the head of `l`;
returns the remaining text on success. -/
def kwTail : List Char → List Char → Option (List Char)
  | [], l => some l
  | _ :: _, [] => none
  | k :: ks, c :: cs => if c.toLower = k then kwTail ks cs else none

/-- Model of the regex tail `\s+(\d+)`: at least one whitespace character, then the
maximal digit run, whose value is returned. -/
def numAfter (l : List Char) : Option Nat :=
  match l with
  | [] => none
  | c :: t =>
    if pySpace c then
      let ds := ((c :: t).dropWhile pySpace).takeWhile Char.isDigit
      if ds = [] then none else some (readNat ds)
    else none

/-- One attempt of `(?:position|at|nucleotide)\s+(\d+)` anchored at the current offset. -/
def kwNumAt (l : List Char) : Option Nat :=
  match (kwTail (str (r"position")) l).bind numAfter with
  | some n => some n
  | none =>
    match (kwTail (str (r"at")) l).bind numAfter with
    | some n => some n
    | none => (kwTail (str (r"nucleotide")) l).bind numAfter

/-- Leftmost match of `(?:position|at|nucleotide)\s+(\d+)`, case-insensitive
(step1_parse_viral_genome.py line 80). -/
def kwNumSearch : List Char → Option Nat
  | [] => none
  | c :: t =>
    match kwNumAt (c :: t) with
    | some n => some n
    | none => kwNumSearch t

/-- Fuelled scan for the leftmost `\b(\d+)\b` token; the Boolean records whether the
previous character was a word character (so a word boundary fails). -/
def intTokAux : Nat → Bool → List Char → Option Nat
  | 0, _, _ => none
  | _ + 1, _, [] => none
  | fuel + 1, prevW, c :: t =>
    if c.isDigit = true ∧ prevW = false then
      let run := (c :: t).takeWhile Char.isDigit
      match (c :: t).dropWhile Char.isDigit with
      | [] => some (readNat run)
      | d :: t2 => if wordChar d then intTokAux fuel true t2 else some (readNat run)
    else intTokAux fuel (wordChar c) t

/-- `re.search(r'\b(\d+)\b', note)` (step1_parse_viral_genome.py line 85). -/
def intTokSearch (l : List Char) : Option Nat := intTokAux l.length false l

/-- All `\b\d+\b` tokens of the note, leftmost to rightmost (claim vocabulary for C7). -/
def intToksAux : Nat → Bool → List Char → List Nat
  | 0, _, _ => []
  | _ + 1, _, [] => []
  | fuel + 1, prevW, c :: t =>
    if c.isDigit = true ∧ prevW = false then
      let run := (c :: t).takeWhile Char.isDigit
      match (c :: t).dropWhile Char.isDigit with
      | [] => [readNat run]
      | d :: t2 =>
        if wordChar d then intToksAux fuel true t2
        else readNat run :: intToksAux fuel true (d :: t2)
    else intToksAux fuel (wordChar c) t

/-- All integer tokens of a note (claim vocabulary for C7). -/
def intTokens (l : List Char) : List Nat := intToksAux l.length false l

/-- step1_parse_viral_genome.py, `extract_frameshift_position` (lines 64-93):
keyword-anchored integer, else the first integer token provided it lies in the
feature span, else the feature midpoint. -/
def extract_frameshift_position (note : List Char) (feature_start feature_end : Nat) : Nat :=
  match kwNumSearch note with
  | some n => n
  | none =>
    match intTokSearch note with
    | some pos =>
      if feature_start ≤ pos ∧ pos ≤ feature_end then pos
      else (feature_start + feature_end) / 2
    | none => (feature_start + feature_end) / 2

/- ### step1_parse_viral_genome.py: GenBank reader (lines 95-177) -/

/-- One Biopython feature: kind, native 0-based half-open location, strand
(1, -1, 0 or None), first `product` qualifier, selected other qualifiers,
and the `note` qualifier list. -/
structure GbFeature where
  ftype : List Char
  startLoc : Nat
  endLoc : Nat
  strand : Option Int
  product : Option (List Char)
  locus_tag : Option (List Char)
  gene : Option (List Char)
  protein_id : Option (List Char)
  notes : List (List Char)
deriving DecidableEq

/-- One emitted nine-column GFF3 feature line, with attributes kept structured. -/
structure GffLine where
  seqid : List Char
  source : List Char
  ftype : List Char
  startPos : Nat
  endPos : Nat
  score : List Char
  strand : List Char
  phase : List Char
  attrs : List (List Char × List Char)
deriving DecidableEq

/-- Reader's 0-based to 1-based start conversion (step1 line 132). -/
def gbReadStart (a : Nat) : Nat := a + 1

/-- Reader's end coordinate (step1 line 133): the native exclusive end is already
the 1-based inclusive end. -/
def gbReadEnd (b : Nat) : Nat := b

/-- Strand symbol emitted by the reader (step1 line 134):
`"+" if feature.location.strand == 1 else "-"`. -/
def strandSym (s : Option Int) : List Char := if s = some 1 then str (r"+") else str (r"-")

/-- Lower-cased first product qualifier, defaulting to the empty string (line 120). -/
def lowerProduct (f : GbFeature) : List Char := toLowerList (f.product.getD [])

/-- A CDS feature whose product mentions "polyprotein" (lines 119-121). -/
def isPolyCDS (f : GbFeature) : Bool :=
  (f.ftype == str (r"CDS")) && isSubstring (str (r"polyprotein")) (lowerProduct f)

/-- GenBank feature kind `3'UTR`. -/
def utr3 : List Char := ['3', apos] ++ str (r"UTR")

/-- GenBank feature kind `5'UTR`. -/
def utr5 : List Char := ['5', apos] ++ str (r"UTR")

/-- Feature kinds written to the GFF3 (step1 line 131). -/
def keptTypes : List (List Char) :=
  [str (r"CDS"), str (r"gene"), str (r"mRNA"), utr3, utr5, str (r"mat_peptide")]

/-- Emit `k=v` when the qualifier is present (step1 lines 141-148). -/
def attrIf (k : List Char) : Option (List Char) → List (List Char × List Char)
  | some v => [(k, v)]
  | none => []

/-- Frameshift point-feature emission for one kept feature's notes
(step1 lines 158-171), threading `features_written`. -/
def processNotes (rid strand : List Char) (startC endC : Nat) :
    List (List Char) → Nat → List GffLine × Nat
  | [], w => ([], w)
  | note :: rest, w =>
    if isSubstring (str (r"frameshift")) (toLowerList note) then
      let pos := extract_frameshift_position note startC endC
      if pos ≠ 0 then
        (⟨rid, str (r"GenBank"), str (r"frameshift"), pos, pos, str (r"."), strand, str (r"."),
            [(str (r"ID"), str (r"frameshift_") ++ natDigits w),
             (str (r"product"), str (r"programmed frameshift")),
             (str (r"note"), note)]⟩ ::
          (processNotes rid strand startC endC rest (w + 1)).1,
          (processNotes rid strand startC endC rest (w + 1)).2)
      else processNotes rid strand startC endC rest w
    else processNotes rid strand startC endC rest w

/-- Processing of one feature in `parse_genbank_skip_polyprotein` (step1 lines 117-171):
returns the emitted lines and the updated `features_written` counter. -/
def processFeature (rid : List Char) (w : Nat) (f : GbFeature) : List GffLine × Nat :=
  if isPolyCDS f then ([], w)
  else if f.ftype == str (r"source") then ([], w)
  else if keptTypes.contains f.ftype then
    let startC := gbReadStart f.startLoc
    let endC := gbReadEnd f.endLoc
    let strand := strandSym f.strand
    let output_type := if f.ftype == str (r"mat_peptide") then str (r"CDS") else f.ftype
    let baseAttrs :=
      attrIf (str (r"ID")) f.locus_tag ++ attrIf (str (r"gene")) f.gene ++
        attrIf (str (r"product")) f.product ++ attrIf (str (r"protein_id")) f.protein_id
    let attrs :=
      if baseAttrs = [] then [(str (r"ID"), output_type ++ '_' :: natDigits w)] else baseAttrs
    (⟨rid, str (r"GenBank"), output_type, startC, endC, str (r"."), strand, str (r"."), attrs⟩ ::
        (processNotes rid strand startC endC f.notes (w + 1)).1,
      (processNotes rid strand startC endC f.notes (w + 1)).2)
  else ([], w)

/-- The feature loop of `parse_genbank_skip_polyprotein` for one record,
threading `features_written`. -/
def parseRecLines (rid : List Char) : List GbFeature → Nat → List GffLine × Nat
  | [], w => ([], w)
  | f :: fs, w =>
    ((processFeature rid w f).1 ++ (parseRecLines rid fs (processFeature rid w f).2).1,
      (parseRecLines rid fs (processFeature rid w f).2).2)

/-- The `polyproteins_skipped` counter of the same loop (lines 119-124). -/
def parseRecSkipped : List GbFeature → Nat → Nat
  | [], sk => sk
  | f :: fs, sk => parseRecSkipped fs (if isPolyCDS f then sk + 1 else sk)

/-- The record loop of `parse_genbank_skip_polyprotein` (line 113), threading
`features_written` across records. -/
def parseGbAux : List (List Char × List GbFeature) → Nat → List GffLine × Nat
  | [], w => ([], w)
  | rf :: rest, w =>
    ((parseRecLines rf.1 rf.2 w).1 ++ (parseGbAux rest (parseRecLines rf.1 rf.2 w).2).1,
      (parseGbAux rest (parseRecLines rf.1 rf.2 w).2).2)

/-- All feature lines written by `parse_genbank_skip_polyprotein`
(the `##` header lines are not modelled). -/
def parseGenbankLines (records : List (List Char × List GbFeature)) : List GffLine :=
  (parseGbAux records 0).1

/-- Final value of `polyproteins_skipped` for a whole input. -/
def parseGenbankSkipped (records : List (List Char × List GbFeature)) : Nat :=
  records.foldl (fun a rf => parseRecSkipped rf.2 a) 0

/- ### step2_add_to_snpeff.py: TSV-to-GFF regenerator (lines 17-107) -/

/-- One row of the editable TSV as read by pandas: `none` models a NaN cell.
The `gene` and `notes` columns are not read by `tsv_to_gff` and are omitted. -/
structure TsvRow where
  action : List Char
  seqid : List Char
  source : List Char
  type : List Char
  start : Nat
  endPos : Nat
  strand : List Char
  gene_name : Option (List Char)
  product : Option (List Char)
  ID : Option (List Char)
  protein_id : Option (List Char)
deriving DecidableEq

/-- The `action` value that removes a row. -/
def deleteStr : List Char := str (r"DELETE")

/-- Rows kept by the regenerator: `df[df['action'] != 'DELETE']` (step2 line 23). -/
def keptRows (rows : List TsvRow) : List TsvRow :=
  rows.filter (fun a => !(a.action == deleteStr))

/-- Python truthiness of `pd.notna(x) and x` for a string cell. -/
def truthyOpt : Option (List Char) → Option (List Char)
  | some v => if v = [] then none else some v
  | none => none

/-- Unique-id assignment for a CDS row (step2 lines 58-67); `cds_count` has
already been incremented when this is evaluated. -/
def cdsUniqueId (a : TsvRow) (cds_count : Nat) : List Char :=
  match truthyOpt a.gene_name with
  | some g => g
  | none =>
    match a.ID with
    | some i => str (r"CDS_") ++ i ++ '_' :: natDigits cds_count
    | none => str (r"CDS_") ++ natDigits cds_count

/-- Attribute list for a CDS row (step2 lines 69-81). -/
def cdsAttrs (a : TsvRow) (uid : List Char) : List (List Char × List Char) :=
  (str (r"ID"), uid) ::
    (attrIf (str (r"gene")) (truthyOpt a.gene_name) ++
      attrIf (str (r"product")) (truthyOpt a.product) ++
      attrIf (str (r"protein_id")) (truthyOpt a.protein_id))

/-- Attribute list for a non-CDS row (step2 lines 83-93). -/
def nonCdsAttrs (a : TsvRow) : List (List Char × List Char) :=
  attrIf (str (r"ID")) a.ID ++ attrIf (str (r"gene")) (truthyOpt a.gene_name) ++
    attrIf (str (r"product")) (truthyOpt a.product)

/-- The GFF line built for one retained row (step2 lines 43-101). -/
def rowLine (a : TsvRow) (attrs : List (List Char × List Char)) : GffLine :=
  ⟨a.seqid, a.source, a.type, a.start, a.endPos, str (r"."), a.strand, str (r"."), attrs⟩

/-- Feature-emission loop of `tsv_to_gff` (step2 lines 39-101), threading `cds_count`. -/
def emitRows : List TsvRow → Nat → List GffLine
  | [], _ => []
  | a :: rest, c =>
    if a.type == str (r"CDS") then
      rowLine a (cdsAttrs a (cdsUniqueId a (c + 1))) :: emitRows rest (c + 1)
    else rowLine a (nonCdsAttrs a) :: emitRows rest c

/-- Feature lines of the regenerated GFF3 (the `##` header lines are not modelled). -/
def tsv_to_gff_lines (rows : List TsvRow) : List GffLine := emitRows (keptRows rows) 0

/-- The ID attribute of each CDS-kind feature line, in emission order. -/
def cdsLineIds (lines : List GffLine) : List (List Char) :=
  lines.filterMap (fun l => if l.ftype == str (r"CDS") then l.attrs.lookup (str (r"ID")) else none)

/- ### step2_add_to_snpeff.py: sequence extractor (lines 109-183) -/

/-- Extractor's 1-based-to-slice start conversion (step2 line 126). -/
def gffSliceStart (s : Nat) : Nat := s - 1

/-- Extractor's end coordinate (step2 line 127): used directly as the slice end. -/
def gffSliceEnd (e : Nat) : Nat := e

/-- Python slice `genome[s:e]`. -/
def pySlice (g : List Char) (s e : Nat) : List Char := (g.drop s).take (e - s)

/-- Transcript identifier of a CDS line (step2 lines 139, 145). -/
def cdsTid (l : GffLine) : List Char :=
  str (r"TRANSCRIPT_") ++ (l.attrs.lookup (str (r"ID"))).getD (str (r"unknown"))

/-- Coding sequence of a CDS line (step2 lines 148-150); `revcomp` models
Biopython's reverse_complement. -/
def cdsSeqOf (revcomp : List Char → List Char) (genome : List Char) (l : GffLine) : List Char :=
  if l.strand == str (r"-") then
    revcomp (pySlice genome (gffSliceStart l.startPos) (gffSliceEnd l.endPos))
  else pySlice genome (gffSliceStart l.startPos) (gffSliceEnd l.endPos)

/-- `extract_cds_and_proteins` (step2 lines 109-183): the `(cds_records, protein_records)`
lists of `(id, sequence)` pairs; `translate` models Biopython's translate(to_stop=True). -/
def extractCds (revcomp translate : List Char → List Char) (genome : List Char) :
    List GffLine → List (List Char × List Char) × List (List Char × List Char)
  | [] => ([], [])
  | l :: ls =>
    if l.ftype == str (r"CDS") then
      ((cdsTid l, cdsSeqOf revcomp genome l) :: (extractCds revcomp translate genome ls).1,
        (cdsTid l, translate (cdsSeqOf revcomp genome l)) ::
          (extractCds revcomp translate genome ls).2)
    else extractCds revcomp translate genome ls

/-- Return value of `extract_cds_and_proteins` (step2 line 183): `len(cds_records) > 0`. -/
def extract_ok (revcomp translate : List Char → List Char) (genome : List Char)
    (lines : List GffLine) : Bool :=
  decide (0 < (extractCds revcomp translate genome lines).1.length)

/- ### step2_add_to_snpeff.py: orchestrator control flow (lines 185-282) -/

/-- Control-flow model of `add_genome_to_snpeff`.  The Booleans model the
environment probes (explicit data dir, SNPEFF_HOME, existing genome directory,
--force, JAVA_HOME) and the external build's exit status; the result is
`(returned success, zero-CDS warning printed)`.  The zero-CDS branch
(lines 229-230) only prints a warning and continues. -/
def add_genome_to_snpeff (dataDirGiven snpeffHomeSet dirExists force javaHomeSet buildOk : Bool)
    (revcomp translate : List Char → List Char) (genome : List Char)
    (lines : List GffLine) : Bool × Bool :=
  if !dataDirGiven && !snpeffHomeSet then (false, false)
  else if dirExists && !force then (false, false)
  else
    if javaHomeSet && snpeffHomeSet then
      (buildOk, !extract_ok revcomp translate genome lines)
    else (false, !extract_ok revcomp translate genome lines)

/- ### step1_vadr_annotate.py: coordinate parsing and gene inference (lines 127-248) -/

/-- The VADR segment separator `..`. -/
def dotdot : List Char := str (r"..")

/-- Strip the strand suffix: `.replace(':+','').replace(':-','')`
(step1_vadr lines 182 and 203). -/
def stripStrand (l : List Char) : List Char :=
  removeAllSeq (str (r":-")) (removeAllSeq (str (r":+")) l)

/-- `segment.split('..')[0]` (step1_vadr line 180). -/
def segStartText (seg : List Char) : List Char := ((splitOnSeq dotdot seg).head?).getD []

/-- `segment.split('..')[1]` with the strand suffix stripped (step1_vadr lines 182, 203);
`none` models `IndexError`. -/
def segEndText (seg : List Char) : Option (List Char) :=
  (secondPart (splitOnSeq dotdot seg)).map stripStrand

/-- Junction ends collected from every segment but the last (step1_vadr lines 201-207). -/
def junctionEnds : List (List Char) → Option (List (List Char))
  | [] => some []
  | [_] => some []
  | s :: t :: rest =>
    match segEndText s, junctionEnds (t :: rest) with
    | some e, some es => some (e :: es)
    | _, _ => none

/-- `coord_parts = seq_coords.split(',')` (step1_vadr line 175). -/
def vadrParts (coords : List Char) : List (List Char) := splitOnChar ',' coords

/-- Coordinate handling for one VADR feature record (step1_vadr lines 173-210):
start of the first comma-separated segment, end of the last, and the frameshift
note for multi-segment strings.  `none` models the record being skipped on a
parse error (or the uncaught IndexError of line 182). -/
def parseVadrCoords (coords : List Char) : Option (Nat × Nat × List Char) :=
  match segEndText (((vadrParts coords).getLast?).getD []) with
  | none => none
  | some endTxt =>
    match readNatOpt (segStartText (((vadrParts coords).head?).getD [])), readNatOpt endTxt with
    | some s, some e =>
      if 1 < (vadrParts coords).length then
        match junctionEnds (vadrParts coords) with
        | some ends => some (s, e, str (r"frameshift_variant_pos_") ++ joinComma ends)
        | none => none
      else some (s, e, [])
    | _, _ => none

/-- ASCII upper-case letter test (regex class `[A-Z]`). -/
def isUpperAlpha (c : Char) : Bool := 'A' ≤ c && c ≤ 'Z'

/-- Anchored attempt of the regex `NS\d+[A-Z]?`. -/
def nsMatchAt (l : List Char) : Option (List Char) :=
  match l with
  | c1 :: c2 :: rest =>
    if c1 = 'N' ∧ c2 = 'S' then
      let ds := rest.takeWhile Char.isDigit
      if ds = [] then none
      else
        match rest.dropWhile Char.isDigit with
        | c :: _ =>
          if isUpperAlpha c then some ('N' :: 'S' :: (ds ++ [c])) else some ('N' :: 'S' :: ds)
        | [] => some ('N' :: 'S' :: ds)
    else none
  | _ => none

/-- `re.search(r'NS\d+[A-Z]?', product.upper())` (step1_vadr line 215): leftmost match. -/
def nsSearch : List Char → Option (List Char)
  | [] => none
  | c :: t =>
    match nsMatchAt (c :: t) with
    | some x => some x
    | none => nsSearch t

/-- Gene-symbol inference of `parse_vadr_output` (step1_vadr lines 212-227),
with `gene` initialised to the empty string. -/
def vadrGeneSymbol (product feature_type : List Char) : List Char :=
  if isSubstring (str (r"NS")) (toUpperList product) then
    match nsSearch (toUpperList product) with
    | some tok => tok
    | none => []
  else if isSubstring (str (r"capsid")) (toLowerList product) then str (r"C")
  else if isSubstring (str (r"envelope")) (toLowerList product) then str (r"E")
  else if isSubstring (str (r"membrane")) (toLowerList product) &&
      !(isSubstring (str (r"precursor")) (toLowerList product)) then str (r"M")
  else if isSubstring (str (r"prM")) product ||
      isSubstring (str (r"precursor")) (toLowerList product) then str (r"prM")
  else if feature_type == str (r"gene") then product
  else []

/- ### Claim-vocabulary definitions (formalisations of the spec's wording, to be
compared with the definitions translated from the source) -/

/-- The fallback chain as the spec states it for C7: keyword-anchored integer, else the
first integer token of the note THAT LIES INSIDE the feature span, else the midpoint. -/
def claimedFallbackPos (note : List Char) (s e : Nat) : Nat :=
  match kwNumSearch note with
  | some n => n
  | none =>
    match (intTokens note).find? (fun p => decide (s ≤ p) && decide (p ≤ e)) with
    | some p => p
    | none => (s + e) / 2

/-- The gene-symbol rules as the spec states them for C9: an NS-number pattern in the
uppercased product yields that token; else capsid, envelope, membrane, prM/precursor
rules; else a gene-kind record uses the product verbatim. -/
def claimedGeneSymbol (product feature_type : List Char) : List Char :=
  match nsSearch (toUpperList product) with
  | some tok => tok
  | none =>
    if isSubstring (str (r"capsid")) (toLowerList product) then str (r"C")
    else if isSubstring (str (r"envelope")) (toLowerList product) then str (r"E")
    else if isSubstring (str (r"membrane")) (toLowerList product) &&
        !(isSubstring (str (r"precursor")) (toLowerList product)) then str (r"M")
    else if isSubstring (str (r"prM")) product ||
        isSubstring (str (r"precursor")) (toLowerList product) then str (r"prM")
    else if feature_type == str (r"gene") then product
    else []

/- ### Claim C2 -/

/-- Claim C2 (confirmed): the reader converts native 0-based half-open `[a,b)` to
1-based inclusive `[a+1, b]` (step1 lines 132-133), the extractor converts back with
`start-1, end` (step2 lines 126-127), and the composition reproduces exactly the
native slice `[a, b)` of the genome. -/
theorem C2_coordinate_roundtrip : ∀ (a b : Nat) (g : List Char),
    gffSliceStart (gbReadStart a) = a ∧ gffSliceEnd (gbReadEnd b) = b ∧
    pySlice g (gffSliceStart (gbReadStart a)) (gffSliceEnd (gbReadEnd b)) = pySlice g a b := by
  intro a b g
  refine ⟨?_, rfl, ?_⟩ <;> simp [gffSliceStart, gbReadStart, gffSliceEnd, gbReadEnd]

/- ### Claim C3 -/

/-- Claim C3 (confirmed): inserting a row whose `action` is `DELETE` anywhere in the
input table changes neither the regenerated feature lines nor the extractor's CDS and
protein record lists: a DELETE row produces no feature line and no derived sequence. -/
theorem C3_delete_rows_produce_nothing :
    ∀ (pre post : List TsvRow) (a : TsvRow), a.action = deleteStr →
      tsv_to_gff_lines (pre ++ a :: post) = tsv_to_gff_lines (pre ++ post) ∧
      ∀ (revcomp translate : List Char → List Char) (genome : List Char),
        extractCds revcomp translate genome (tsv_to_gff_lines (pre ++ a :: post)) =
          extractCds revcomp translate genome (tsv_to_gff_lines (pre ++ post)) := by
  intro pre post a ha
  have hk : keptRows (pre ++ a :: post) = keptRows (pre ++ post) := by
    simp [keptRows, List.filter_append, List.filter_cons, ha]
  have hl : tsv_to_gff_lines (pre ++ a :: post) = tsv_to_gff_lines (pre ++ post) := by
    unfold tsv_to_gff_lines
    rw [hk]
  exact ⟨hl, fun revcomp translate genome => by rw [hl]⟩

/-- Concrete DELETE row used by the C3 witness. -/
def c3row : TsvRow :=
  ⟨str (r"DELETE"), str (r"NC"), str (r"GenBank"), str (r"CDS"), 10, 60, str (r"+"),
    some (str (r"NS1")), none, none, none⟩

/-- Witness for C3 at a concrete one-row table. -/
theorem C3_witness :
    c3row.action = deleteStr ∧
    tsv_to_gff_lines [c3row] = tsv_to_gff_lines [] ∧
    extractCds (fun l => l) (fun l => l) [] (tsv_to_gff_lines [c3row]) =
      extractCds (fun l => l) (fun l => l) [] (tsv_to_gff_lines []) := by
  have h := C3_delete_rows_produce_nothing [] [] c3row (by decide)
  exact ⟨by decide, h.1, h.2 (fun l => l) (fun l => l) []⟩

/- ### Claim C6 -/

/-- First row of the C6 counterexample table: a KEEP row starting at 200. -/
def c6rowA : TsvRow :=
  ⟨str (r"KEEP"), str (r"NC"), str (r"GenBank"), str (r"CDS"), 200, 300, str (r"+"),
    some (str (r"NS1")), none, none, none⟩

/-- Second row of the C6 counterexample table: a KEEP row starting at 100. -/
def c6rowB : TsvRow :=
  ⟨str (r"KEEP"), str (r"NC"), str (r"GenBank"), str (r"CDS"), 100, 150, str (r"+"),
    some (str (r"NS2")), none, none, none⟩

/-- Claim C6 is false as stated: `tsv_to_gff` never sorts, so a retained table whose
rows are not already ordered yields feature lines whose start positions are not in
coordinate-sorted order. -/
theorem C6_counterexample :
    (tsv_to_gff_lines [c6rowA, c6rowB]).map (fun l => l.startPos) = [200, 100] ∧
    ¬ List.Pairwise (fun x y => x ≤ y)
        ((tsv_to_gff_lines [c6rowA, c6rowB]).map (fun l => l.startPos)) := by
  constructor
  · decide
  · decide

/-- Claim C6 (amended): the regenerator emits exactly one feature line per retained row,
in the same order as the retained rows of the input table — so the output is
coordinate-sorted if and only if the edited table already is. -/
theorem C6_emission_order : ∀ rows : List TsvRow,
    (tsv_to_gff_lines rows).map (fun l => l.startPos) =
      (keptRows rows).map (fun a => a.start) := by
  have emit : ∀ (l : List TsvRow) (c : Nat),
      (emitRows l c).map (fun x => x.startPos) = l.map (fun a => a.start) := by
    intro l
    induction l with
    | nil => intro c; rfl
    | cons a rest ih =>
      intro c
      by_cases h : (a.type == str (r"CDS")) = true
      · simp [emitRows, h, rowLine, ih]
      · simp [emitRows, h, rowLine, ih]
  intro rows
  exact emit (keptRows rows) 0

/- ### Claim C8 -/

/-- Whether the orchestrator's control flow reaches the extraction step
(i.e. passes the data-dir and existing-directory checks of lines 189-209). -/
def earlyPass (dataDirGiven snpeffHomeSet dirExists force : Bool) : Bool :=
  !(!dataDirGiven && !snpeffHomeSet) && !(dirExists && !force)

/-- Claim C8 is false as stated: with a zero-CDS annotation the extraction step
reports no records, yet `add_genome_to_snpeff` still returns success when the
external build succeeds — the failure is not surfaced to the caller. -/
theorem C8_counterexample :
    (add_genome_to_snpeff true true false false true true (fun l => l) (fun l => l) [] []).1
        = true ∧
    extract_ok (fun l => l) (fun l => l) [] [] = false := by
  exact ⟨rfl, rfl⟩

/-- Claim C8 (amended): when zero CDS records are produced,
`extract_cds_and_proteins` returns False and the orchestrator prints a warning
(whenever control reaches the extraction step), but it continues: the orchestrator's
returned success status is independent of the extraction result. -/
theorem C8_zero_cds_warning_only :
    ∀ (d s e f j b : Bool) (revcomp translate : List Char → List Char) (genome : List Char)
      (lines lines2 : List GffLine),
      (add_genome_to_snpeff d s e f j b revcomp translate genome lines).1 =
        (add_genome_to_snpeff d s e f j b revcomp translate genome lines2).1 ∧
      (add_genome_to_snpeff d s e f j b revcomp translate genome lines).2 =
        (earlyPass d s e f && !extract_ok revcomp translate genome lines) ∧
      (extract_ok revcomp translate genome lines = false ↔
        (extractCds revcomp translate genome lines).1 = []) := by
  intro d s e f j b revcomp translate genome lines lines2
  refine ⟨?_, ?_, ?_⟩
  · unfold add_genome_to_snpeff
    cases d <;> cases s <;> cases e <;> cases f <;> cases j <;> simp
  · unfold add_genome_to_snpeff earlyPass
    cases d <;> cases s <;> cases e <;> cases f <;> cases j <;> simp
  · unfold extract_ok
    cases hx : (extractCds revcomp translate genome lines).1 <;> simp [hx]

/- ### Claim C1 -/

/-- A blank `gene_name` cell: NaN or the empty string. -/
def blankName (a : TsvRow) : Prop := a.gene_name = none ∨ a.gene_name = some []

instance (a : TsvRow) : Decidable (blankName a) := by
  unfold blankName
  infer_instance

theorem truthy_blank {a : TsvRow} (h : blankName a) : truthyOpt a.gene_name = none := by
  rcases h with h | h <;> simp [truthyOpt, h]

/-- For a blank gene name, the assigned unique id ends in an underscore followed by the
decimal rendering of the running CDS counter. -/
theorem cdsUniqueId_blank {a : TsvRow} (h : blankName a) (c : Nat) :
    ∃ p : List Char, cdsUniqueId a c = p ++ '_' :: natDigits c := by
  unfold cdsUniqueId
  rw [truthy_blank h]
  cases hid : a.ID with
  | some i =>
    refine ⟨str (r"CDS_") ++ i, ?_⟩
    simp [List.append_assoc]
  | none =>
    refine ⟨str (r"CDS"), ?_⟩
    have : str (r"CDS_") = str (r"CDS") ++ ['_'] := by decide
    rw [this, List.append_assoc]
    rfl

theorem cdsLineIds_emit_cds (a : TsvRow) (rest : List TsvRow) (c : Nat)
    (h : (a.type == str (r"CDS")) = true) :
    cdsLineIds (emitRows (a :: rest) c) =
      cdsUniqueId a (c + 1) :: cdsLineIds (emitRows rest (c + 1)) := by
  have h2 : a.type = str (r"CDS") := by simpa using h
  simp [emitRows, h, h2, cdsLineIds, rowLine, cdsAttrs, List.filterMap_cons, List.lookup]

theorem cdsLineIds_emit_noncds (a : TsvRow) (rest : List TsvRow) (c : Nat)
    (h : (a.type == str (r"CDS")) = false) :
    cdsLineIds (emitRows (a :: rest) c) = cdsLineIds (emitRows rest c) := by
  have h2 : ¬ a.type = str (r"CDS") := by simpa using h
  simp [emitRows, h, h2, cdsLineIds, rowLine, List.filterMap_cons]

/-- Every CDS id emitted after counter position `c` from blank-gene-name rows carries a
digit suffix `natDigits k` for some `k > c`. -/
theorem emit_ids_suffix : ∀ (l : List TsvRow) (c : Nat), (∀ a ∈ l, blankName a) →
    ∀ i ∈ cdsLineIds (emitRows l c), ∃ k, c < k ∧ digitSuffix i = natDigits k := by
  intro l
  induction l with
  | nil => intro c _ i hi; simp [emitRows, cdsLineIds] at hi
  | cons a rest ih =>
    intro c h i hi
    by_cases ha : (a.type == str (r"CDS")) = true
    · rw [cdsLineIds_emit_cds a rest c ha] at hi
      rcases List.mem_cons.mp hi with hi | hi
      · obtain ⟨p, hp⟩ := cdsUniqueId_blank (h a (List.mem_cons_self a rest)) (c + 1)
        refine ⟨c + 1, Nat.lt_succ_self c, ?_⟩
        rw [hi, hp, digitSuffix_underscore p _ (fun x hx => natDigits_digits (c + 1) hx)]
      · obtain ⟨k, hk, hs⟩ :=
          ih (c + 1) (fun x hx => h x (List.mem_cons_of_mem a hx)) i hi
        exact ⟨k, by omega, hs⟩
    · rw [cdsLineIds_emit_noncds a rest c (by simpa using ha)] at hi
      exact ih c (fun x hx => h x (List.mem_cons_of_mem a hx)) i hi

/-- With every gene name blank, the emitted CDS ids are pairwise distinct. -/
theorem emit_ids_nodup : ∀ (l : List TsvRow) (c : Nat), (∀ a ∈ l, blankName a) →
    (cdsLineIds (emitRows l c)).Nodup := by
  intro l
  induction l with
  | nil => intro c _; simp [emitRows, cdsLineIds]
  | cons a rest ih =>
    intro c h
    by_cases ha : (a.type == str (r"CDS")) = true
    · rw [cdsLineIds_emit_cds a rest c ha]
      refine List.nodup_cons.mpr ⟨?_, ih (c + 1) (fun x hx => h x (List.mem_cons_of_mem a hx))⟩
      intro hmem
      obtain ⟨k, hk, hs⟩ :=
        emit_ids_suffix rest (c + 1) (fun x hx => h x (List.mem_cons_of_mem a hx)) _ hmem
      obtain ⟨p, hp⟩ := cdsUniqueId_blank (h a (List.mem_cons_self a rest)) (c + 1)
      rw [hp, digitSuffix_underscore p _ (fun x hx => natDigits_digits (c + 1) hx)] at hs
      have := natDigits_inj hs
      omega
    · rw [cdsLineIds_emit_noncds a rest c (by simpa using ha)]
      exact ih c (fun x hx => h x (List.mem_cons_of_mem a hx))

/-- First row of the C1 counterexample table: curator-supplied gene name `NS1`. -/
def c1rowA : TsvRow :=
  ⟨str (r"KEEP"), str (r"NC"), str (r"GenBank"), str (r"CDS"), 100, 200, str (r"+"),
    some (str (r"NS1")), none, some (str (r"id1")), none⟩

/-- Second row of the C1 counterexample table: the same gene name `NS1`. -/
def c1rowB : TsvRow :=
  ⟨str (r"KEEP"), str (r"NC"), str (r"GenBank"), str (r"CDS"), 300, 400, str (r"+"),
    some (str (r"NS1")), none, some (str (r"id2")), none⟩

/-- Claim C1 is false as stated ("for every input table"): a table whose curator
supplied the same `gene_name` on two CDS rows yields two identical CDS identifiers. -/
theorem C1_counterexample :
    cdsLineIds (tsv_to_gff_lines [c1rowA, c1rowB]) = [str (r"NS1"), str (r"NS1")] ∧
    ¬ (cdsLineIds (tsv_to_gff_lines [c1rowA, c1rowB])).Nodup := by
  constructor
  · decide
  · decide

/-- Claim C1 (amended): the identifiers assigned to CDS rows are pairwise distinct for
every input table in which every `gene_name` field is blank (the synthetic
`CDS_<ID>_<n>` / `CDS_<n>` tokens embed the strictly increasing CDS counter); with
curator-supplied gene names the code copies them verbatim, so distinctness of
non-blank names is a precondition on the curator, not a guarantee. -/
theorem C1_blank_ids_nodup : ∀ rows : List TsvRow, (∀ a ∈ rows, blankName a) →
    (cdsLineIds (tsv_to_gff_lines rows)).Nodup := by
  intro rows h
  exact emit_ids_nodup (keptRows rows) 0 (fun a ha => h a (List.mem_of_mem_filter ha))

/-- First row of the C1 witness table: blank gene name, original ID present. -/
def c1wRowA : TsvRow :=
  ⟨str (r"KEEP"), str (r"NC"), str (r"GenBank"), str (r"CDS"), 100, 200, str (r"+"),
    none, none, some (str (r"p1")), none⟩

/-- Second row of the C1 witness table: empty gene name, no original ID. -/
def c1wRowB : TsvRow :=
  ⟨str (r"KEEP"), str (r"NC"), str (r"GenBank"), str (r"CDS"), 300, 400, str (r"+"),
    some [], none, none, none⟩

/-- Witness for amended C1 at a concrete all-blank table. -/
theorem C1_witness :
    (∀ a ∈ [c1wRowA, c1wRowB], blankName a) ∧
    (cdsLineIds (tsv_to_gff_lines [c1wRowA, c1wRowB])).Nodup :=
  ⟨by decide, C1_blank_ids_nodup [c1wRowA, c1wRowB] (by decide)⟩

/- ### Claim C4 -/

theorem processFeature_poly (rid : List Char) (w : Nat) (f : GbFeature)
    (h : isPolyCDS f = true) : processFeature rid w f = ([], w) := by
  simp [processFeature, h]

theorem parseRecLines_filter (rid : List Char) : ∀ (fs : List GbFeature) (w : Nat),
    parseRecLines rid fs w = parseRecLines rid (fs.filter (fun f => !(isPolyCDS f))) w := by
  intro fs
  induction fs with
  | nil => intro w; rfl
  | cons f rest ih =>
    intro w
    by_cases h : isPolyCDS f = true
    · rw [List.filter_cons]
      simp only [h, Bool.not_true, if_neg (by decide : ¬ (false = true))]
      show ((processFeature rid w f).1 ++
          (parseRecLines rid rest (processFeature rid w f).2).1,
          (parseRecLines rid rest (processFeature rid w f).2).2) = _
      rw [processFeature_poly rid w f h]
      simp [ih w]
    · rw [List.filter_cons]
      have hb : (!(isPolyCDS f)) = true := by simp_all
      simp only [hb, if_pos rfl]
      show ((processFeature rid w f).1 ++
          (parseRecLines rid rest (processFeature rid w f).2).1,
          (parseRecLines rid rest (processFeature rid w f).2).2) = _
      rw [ih (processFeature rid w f).2]
      rfl

theorem parseGbAux_filter : ∀ (records : List (List Char × List GbFeature)) (w : Nat),
    parseGbAux records w =
      parseGbAux (records.map (fun rf => (rf.1, rf.2.filter (fun f => !(isPolyCDS f))))) w := by
  intro records
  induction records with
  | nil => intro w; rfl
  | cons rf rest ih =>
    intro w
    show ((parseRecLines rf.1 rf.2 w).1 ++
        (parseGbAux rest (parseRecLines rf.1 rf.2 w).2).1,
        (parseGbAux rest (parseRecLines rf.1 rf.2 w).2).2) = _
    rw [parseRecLines_filter rf.1 rf.2 w, ih]
    rfl

theorem parseRecSkipped_count : ∀ (fs : List GbFeature) (sk : Nat),
    parseRecSkipped fs sk = sk + (fs.filter isPolyCDS).length := by
  intro fs
  induction fs with
  | nil => intro sk; simp [parseRecSkipped]
  | cons f rest ih =>
    intro sk
    rw [show parseRecSkipped (f :: rest) sk =
        parseRecSkipped rest (if isPolyCDS f then sk + 1 else sk) from rfl,
      List.filter_cons]
    by_cases h : isPolyCDS f = true
    · rw [if_pos h, if_pos h, ih, List.length_cons]
      omega
    · rw [if_neg h, if_neg h, ih]

theorem parseGenbankSkipped_fold : ∀ (records : List (List Char × List GbFeature)) (sk : Nat),
    records.foldl (fun a rf => parseRecSkipped rf.2 a) sk =
      sk + (records.map (fun rf => (rf.2.filter isPolyCDS).length)).sum := by
  intro records
  induction records with
  | nil => intro sk; simp
  | cons rf rest ih =>
    intro sk
    rw [List.foldl_cons]
    show rest.foldl (fun a rf => parseRecSkipped rf.2 a) (parseRecSkipped rf.2 sk) = _
    rw [ih (parseRecSkipped rf.2 sk), parseRecSkipped_count, List.map_cons, List.sum_cons]
    omega

/-- Claim C4 (confirmed): every CDS feature whose product mentions "polyprotein"
(case-insensitively) is excluded from the emitted annotation — dropping those features
from the input leaves the emitted lines unchanged — and the reported skip count equals
the number of such CDS features. -/
theorem C4_polyprotein_skipped : ∀ records : List (List Char × List GbFeature),
    parseGenbankLines records =
      parseGenbankLines (records.map (fun rf => (rf.1, rf.2.filter (fun f => !(isPolyCDS f))))) ∧
    parseGenbankSkipped records =
      (records.map (fun rf => (rf.2.filter isPolyCDS).length)).sum := by
  intro records
  constructor
  · unfold parseGenbankLines
    rw [parseGbAux_filter records 0]
  · unfold parseGenbankSkipped
    rw [parseGenbankSkipped_fold records 0]
    omega

/- ### Claim C10 -/

theorem processNotes_strand (rid strand : List Char) (s e : Nat) :
    ∀ (notes : List (List Char)) (w : Nat) (line : GffLine),
      line ∈ (processNotes rid strand s e notes w).1 → line.strand = strand := by
  intro notes
  induction notes with
  | nil => intro w line h; simp [processNotes] at h
  | cons note rest ih =>
    intro w line h
    by_cases h1 : isSubstring (str (r"frameshift")) (toLowerList note) = true
    · by_cases h2 : extract_frameshift_position note s e ≠ 0
      · simp only [processNotes, h1, if_pos rfl, if_pos h2] at h
        rcases List.mem_cons.mp h with h | h
        · rw [h]
        · exact ih (w + 1) line h
      · simp only [processNotes, h1, if_pos rfl, if_neg h2] at h
        exact ih w line h
    · have h1' : isSubstring (str (r"frameshift")) (toLowerList note) = false := by simp_all
      simp only [processNotes, h1', Bool.false_eq_true, if_neg (by decide : ¬ False)] at h
      exact ih w line h

theorem processFeature_strand (rid : List Char) (w : Nat) (f : GbFeature) (line : GffLine)
    (h : line ∈ (processFeature rid w f).1) : line.strand = strandSym f.strand := by
  unfold processFeature at h
  by_cases h1 : isPolyCDS f = true
  · simp [h1] at h
  · have h1' : isPolyCDS f = false := by simp_all
    rw [h1'] at h
    by_cases h2 : (f.ftype == str (r"source")) = true
    · simp [h2] at h
    · have h2' : (f.ftype == str (r"source")) = false := by simp_all
      rw [h2'] at h
      by_cases h3 : keptTypes.contains f.ftype = true
      · rw [h3] at h
        simp only [Bool.false_eq_true, if_neg (by decide : ¬ False), if_pos rfl] at h
        rcases List.mem_cons.mp h with h | h
        · rw [h]
        · exact processNotes_strand rid (strandSym f.strand) (gbReadStart f.startLoc)
            (gbReadEnd f.endLoc) f.notes (w + 1) line h
      · have h3' : ¬ f.ftype ∈ keptTypes := by simpa using h3
        simp [h3'] at h

theorem parseRecLines_strand (rid : List Char) : ∀ (fs : List GbFeature) (w : Nat)
    (line : GffLine), line ∈ (parseRecLines rid fs w).1 →
    ∃ f ∈ fs, line.strand = strandSym f.strand := by
  intro fs
  induction fs with
  | nil => intro w line h; simp [parseRecLines] at h
  | cons f rest ih =>
    intro w line h
    have h' : line ∈ (processFeature rid w f).1 ∨
        line ∈ (parseRecLines rid rest (processFeature rid w f).2).1 := by
      simpa [parseRecLines, List.mem_append] using h
    rcases h' with h' | h'
    · exact ⟨f, List.mem_cons_self f rest, processFeature_strand rid w f line h'⟩
    · obtain ⟨g, hg, hs⟩ := ih (processFeature rid w f).2 line h'
      exact ⟨g, List.mem_cons_of_mem f hg, hs⟩

theorem parseGbAux_strand : ∀ (records : List (List Char × List GbFeature)) (w : Nat)
    (line : GffLine), line ∈ (parseGbAux records w).1 →
    ∃ rf ∈ records, ∃ f ∈ rf.2, line.strand = strandSym f.strand := by
  intro records
  induction records with
  | nil => intro w line h; simp [parseGbAux] at h
  | cons rf rest ih =>
    intro w line h
    have h' : line ∈ (parseRecLines rf.1 rf.2 w).1 ∨
        line ∈ (parseGbAux rest (parseRecLines rf.1 rf.2 w).2).1 := by
      simpa [parseGbAux, List.mem_append] using h
    rcases h' with h' | h'
    · obtain ⟨f, hf, hs⟩ := parseRecLines_strand rf.1 rf.2 w line h'
      exact ⟨rf, List.mem_cons_self rf rest, f, hf, hs⟩
    · obtain ⟨rg, hrg, f, hf, hs⟩ := ih (parseRecLines rf.1 rf.2 w).2 line h'
      exact ⟨rg, List.mem_cons_of_mem rf hrg, f, hf, hs⟩

/-- Claim C10 (confirmed): the strand symbol emitted by the GenBank reader is `+`
exactly when the native strand equals 1 and `-` for every other native value, and
every emitted feature line's strand field is the strand symbol of some input feature. -/
theorem C10_strand_field :
    (∀ s : Option Int, (strandSym s = str (r"+") ↔ s = some 1) ∧
      (¬ s = some 1 → strandSym s = str (r"-"))) ∧
    (∀ (records : List (List Char × List GbFeature)) (line : GffLine),
      line ∈ parseGenbankLines records →
        ∃ rf ∈ records, ∃ f ∈ rf.2, line.strand = strandSym f.strand) := by
  constructor
  · intro s
    constructor
    · constructor
      · intro h
        by_contra hne
        rw [strandSym, if_neg hne] at h
        exact absurd h (by decide)
      · intro h
        rw [strandSym, if_pos h]
    · intro h
      rw [strandSym, if_neg h]
  · intro records line h
    exact parseGbAux_strand records 0 line h

/-- Concrete minus-strand feature for the C10 witness. -/
def c10feat : GbFeature :=
  ⟨str (r"CDS"), 10, 50, some (-1), some (str (r"envelope protein")),
    some (str (r"tag1")), none, none, []⟩

/-- The feature line the reader emits for `c10feat`. -/
def c10line : GffLine :=
  ⟨str (r"NC"), str (r"GenBank"), str (r"CDS"), 11, 50, str (r"."), str (r"-"), str (r"."),
    [(str (r"ID"), str (r"tag1")), (str (r"product"), str (r"envelope protein"))]⟩

/-- Witness for C10 at a concrete record. -/
theorem C10_witness :
    ∃ rf ∈ [(str (r"NC"), [c10feat])], ∃ f ∈ rf.2, c10line.strand = strandSym f.strand :=
  C10_strand_field.2 [(str (r"NC"), [c10feat])] c10line (by decide)

/- ### Claim C7 -/

/-- Claim C7 is false as stated: on the note `5 160` with feature span `[100, 201]`
the code inspects only the FIRST integer token (5), finds it outside the span, and
falls through to the midpoint 150 — whereas the claimed chain ("first integer in the
note that lies inside the feature span") would return 160. -/
theorem C7_counterexample :
    extract_frameshift_position (str (r"5 160")) 100 201 = 150 ∧
    claimedFallbackPos (str (r"5 160")) 100 201 = 160 := by
  exact ⟨by decide, by decide⟩

/-- Claim C7 (amended): the emitted position is the first integer following
"position"/"at"/"nucleotide"; else the first integer token of the note, USED ONLY IF
it lies inside the feature span; else (including when that first integer is out of
range) the feature midpoint.  Later in-range integers are never consulted. -/
theorem C7_fallback_chain : ∀ (note : List Char) (s e : Nat),
    (∀ n, kwNumSearch note = some n → extract_frameshift_position note s e = n) ∧
    (kwNumSearch note = none → ∀ p, intTokSearch note = some p →
      (s ≤ p ∧ p ≤ e → extract_frameshift_position note s e = p) ∧
      (¬ (s ≤ p ∧ p ≤ e) → extract_frameshift_position note s e = (s + e) / 2)) ∧
    (kwNumSearch note = none → intTokSearch note = none →
      extract_frameshift_position note s e = (s + e) / 2) := by
  intro note s e
  refine ⟨?_, ?_, ?_⟩
  · intro n hn
    simp [extract_frameshift_position, hn]
  · intro hk p hp
    constructor
    · intro hin
      simp [extract_frameshift_position, hk, hp, hin]
    · intro hout
      simp [extract_frameshift_position, hk, hp, hout]
  · intro hk hp
    simp [extract_frameshift_position, hk, hp]

/-- Witness for amended C7 at a concrete keyword-bearing note. -/
theorem C7_witness : extract_frameshift_position (str (r"at 120")) 1 10 = 120 :=
  (C7_fallback_chain (str (r"at 120")) 1 10).1 120 (by decide)

/- ### Claim C9 -/

theorem nsMatchAt_ns {l x : List Char} (h : nsMatchAt l = some x) :
    (str (r"NS")).isPrefixOf l = true := by
  cases l with
  | nil => simp [nsMatchAt] at h
  | cons c1 t =>
    cases t with
    | nil => simp [nsMatchAt] at h
    | cons c2 rest =>
      by_cases hc : c1 = 'N' ∧ c2 = 'S'
      · rcases hc with ⟨e1, e2⟩
        subst e1
        subst e2
        rw [show str (r"NS") = ['N', 'S'] from rfl]
        simp [List.isPrefixOf]
      · simp only [nsMatchAt] at h
        rw [if_neg hc] at h
        exact absurd h (by simp)

theorem nsSearch_substring : ∀ (l x : List Char), nsSearch l = some x →
    isSubstring (str (r"NS")) l = true := by
  intro l
  induction l with
  | nil => intro x h; simp [nsSearch] at h
  | cons c t ih =>
    intro x h
    unfold nsSearch at h
    cases hm : nsMatchAt (c :: t) with
    | some y =>
      unfold isSubstring
      rw [nsMatchAt_ns hm]
      rfl
    | none =>
      rw [hm] at h
      unfold isSubstring
      rw [ih x h]
      simp

theorem nsSearch_none_of_no_sub {l : List Char}
    (h : isSubstring (str (r"NS")) l = false) : nsSearch l = none := by
  cases hs : nsSearch l with
  | none => rfl
  | some x =>
    rw [nsSearch_substring l x hs] at h
    exact absurd h (by decide)

/-- Claim C9 is false as stated: `capsid insertion` contains `capsid`, so the claimed
rules give `C`, but its uppercase form `CAPSID INSERTION` contains the substring `NS`
(inside `INSERTION`), which routes the code into the NS branch where the NS-number
regex fails and the symbol stays blank. -/
theorem C9_counterexample :
    vadrGeneSymbol (str (r"capsid insertion")) (str (r"CDS")) = [] ∧
    claimedGeneSymbol (str (r"capsid insertion")) (str (r"CDS")) = str (r"C") := by
  exact ⟨by decide, by decide⟩

/-- Claim C9 (amended): when the uppercased product contains the substring `NS`, only
the NS-number rule applies (the symbol is the matched token, or blank when the pattern
is absent); otherwise the claimed capsid/envelope/membrane/prM/precursor/gene-kind
rules apply exactly as stated. -/
theorem C9_gene_symbol_guarded : ∀ (product feature_type : List Char),
    vadrGeneSymbol product feature_type =
      if isSubstring (str (r"NS")) (toUpperList product) then
        (nsSearch (toUpperList product)).getD []
      else claimedGeneSymbol product feature_type := by
  intro p t
  by_cases h : isSubstring (str (r"NS")) (toUpperList p) = true
  · rw [if_pos h]
    unfold vadrGeneSymbol
    rw [if_pos h]
    cases hns : nsSearch (toUpperList p) with
    | some tok => simp [hns]
    | none => simp [hns]
  · rw [if_neg h]
    have h0 : isSubstring (str (r"NS")) (toUpperList p) = false := by
      simpa using h
    have hns : nsSearch (toUpperList p) = none := nsSearch_none_of_no_sub h0
    unfold vadrGeneSymbol claimedGeneSymbol
    rw [if_neg h, hns]

/- ### Claim C5 -/

theorem isPrefixOf_append_self : ∀ (l rest : List Char), l.isPrefixOf (l ++ rest) = true := by
  intro l
  induction l with
  | nil => intro rest; cases rest <;> rfl
  | cons c t ih => intro rest; simp [List.isPrefixOf, ih]

theorem isSubstring_append_right (n rest : List Char) : isSubstring n (n ++ rest) = true := by
  cases n with
  | nil => cases rest <;> rfl
  | cons c t =>
    have h1 : isSubstring (c :: t) ((c :: t) ++ rest) =
        ((c :: t).isPrefixOf ((c :: t) ++ rest) || isSubstring (c :: t) (t ++ rest)) := rfl
    rw [h1, isPrefixOf_append_self]
    rfl

theorem junctionEnds_total : ∀ parts : List (List Char),
    (∀ p ∈ parts.dropLast, (segEndText p).isSome) → ∃ es, junctionEnds parts = some es := by
  intro parts
  induction parts with
  | nil => intro _; exact ⟨[], rfl⟩
  | cons s rest ih =>
    cases rest with
    | nil => intro _; exact ⟨[], rfl⟩
    | cons t r =>
      intro h
      have hs : (segEndText s).isSome := by
        apply h s
        rw [show (s :: t :: r).dropLast = s :: (t :: r).dropLast from rfl]
        exact List.mem_cons_self s _
      obtain ⟨e, he⟩ := Option.isSome_iff_exists.mp hs
      obtain ⟨es, hes⟩ := ih (fun p hp => by
        apply h p
        rw [show (s :: t :: r).dropLast = s :: (t :: r).dropLast from rfl]
        exact List.mem_cons_of_mem s hp)
      refine ⟨e :: es, ?_⟩
      unfold junctionEnds
      rw [he, hes]

/-- Claim C5 (confirmed): for a record whose comma-separated coordinate string has
well-formed segments (first start parses, last end parses, every non-final segment
contains `..`), the parser emits exactly one feature: its start is the first segment's
start, its end is the last segment's end, and its notes carry the `frameshift_variant`
marker precisely when there is more than one segment. -/
theorem C5_multisegment : ∀ (coords : List Char) (s e : Nat),
    readNatOpt (segStartText (((vadrParts coords).head?).getD [])) = some s →
    (segEndText (((vadrParts coords).getLast?).getD [])).bind readNatOpt = some e →
    (∀ p ∈ (vadrParts coords).dropLast, (segEndText p).isSome) →
    ∃ notes, parseVadrCoords coords = some (s, e, notes) ∧
      (isSubstring (str (r"frameshift_variant")) notes = true ↔
        1 < (vadrParts coords).length) := by
  intro coords s e hs he hseg
  obtain ⟨endTxt, het, hre⟩ : ∃ t_1, segEndText (((vadrParts coords).getLast?).getD []) = some t_1 ∧
      readNatOpt t_1 = some e := by
    cases hx : segEndText (((vadrParts coords).getLast?).getD []) with
    | none => rw [hx] at he; simp at he
    | some t_1 => rw [hx] at he; exact ⟨t_1, rfl, by simpa using he⟩
  by_cases hlen : 1 < (vadrParts coords).length
  · obtain ⟨es, hes⟩ := junctionEnds_total (vadrParts coords) hseg
    refine ⟨str (r"frameshift_variant_pos_") ++ joinComma es, ?_, ?_⟩
    · simp only [parseVadrCoords, het, hs, hre, if_pos hlen, hes]
    · constructor
      · intro _; exact hlen
      · intro _
        rw [show str (r"frameshift_variant_pos_") =
            str (r"frameshift_variant") ++ str (r"_pos_") from rfl, List.append_assoc]
        exact isSubstring_append_right _ _
  · refine ⟨[], ?_, ?_⟩
    · simp only [parseVadrCoords, het, hs, hre, if_neg hlen]
    · constructor
      · intro hfalse; exact absurd hfalse (by decide)
      · intro hl; exact absurd hl hlen

/-- Witness for C5 at a concrete two-segment coordinate string. -/
theorem C5_witness :
    ∃ notes, parseVadrCoords (str (r"1..100:+,105..200:+")) = some (1, 200, notes) ∧
      (isSubstring (str (r"frameshift_variant")) notes = true ↔
        1 < (vadrParts (str (r"1..100:+,105..200:+"))).length) :=
  C5_multisegment (str (r"1..100:+,105..200:+")) 1 200 (by decide) (by decide) (by decide)

end ViralSnpeff
